import Mathlib

/-!
# A model of the `Theater` seat-booking core of `movie.cpp`

This file gives a shallow embedding, in Lean, of the seat-booking engine of
the movie-ticket repository (`src/movie.cpp`): the `ShowInfo` record, the
`Theater` class with its seat-id codec (`makeSeatId` / `seatIndexFromId`),
`addShowInfo`, `availableSeatIds` and `bookSeats`, together with theorems
about show resolution, the all-or-nothing booking contract, the seat-id
codec and the `freeTickets` bookkeeping.

Modelling conventions:

* `std::time_t` values are modelled as seconds (`Nat`).  `localtime` /
  `mktime` are modelled for a fixed zero-offset local time without DST:
  `toLocalMidnight t = t / 86400 * 86400` zeroes the time-of-day fields and
  `hour_min_local` extracts `tm_hour` / `tm_min`.  Calendar/timezone
  arithmetic beyond this is out of scope (as in the repository's spec).
* C++ `int` / `long` arithmetic never overflows in the modelled paths
  (capacities and parsed seat numbers are compared against the capacity
  before any arithmetic), so machine integers are modelled as `Int` / `Nat`.
* `std::string` is modelled as the list of its characters; the C-string
  boundary (`c_str`) is modelled for NUL-free strings.
* `double price` is informational only (never read by any modelled
  operation); it is carried as an opaque numeric tag of type `Int`.
* `std::strtol(p, &endp, 10)` is modelled by `strtol10`: skip C whitespace,
  an optional sign, then a maximal run of decimal digits; when no digit is
  consumed the result is `0` with `endp` reset to the original pointer.
  `LONG_MAX`/`LONG_MIN` clamping is omitted: the only caller immediately
  rejects any value `≤ 0` or `> maxSeats`, so clamping is observationally
  irrelevant for capacities that fit in an `int`.
-/

namespace MovieTickets

/-! ## Time model (`toLocalMidnight`, `hour_min_local`) -/

/-- Seconds per day. -/
def secondsPerDay : Nat := 86400

/-- `toLocalMidnight` from `movie.cpp`: zero the `tm_hour`/`tm_min`/`tm_sec`
fields of the local decomposition, i.e. round down to the enclosing day. -/
def toLocalMidnight (t : Nat) : Nat := t / secondsPerDay * secondsPerDay

/-- The `HM` struct of `movie.cpp`: an hour/minute pair. -/
structure HM where
  h : Nat
  m : Nat
deriving DecidableEq, Repr

/-- `hour_min_local` from `movie.cpp`: the `tm_hour` and `tm_min` fields of
the local decomposition of `t`. -/
def hour_min_local (t : Nat) : HM :=
  { h := t % secondsPerDay / 3600, m := t % 3600 / 60 }

/-! ## Decimal printing (`std::to_string`) and parsing (`std::strtol`) -/

/-- The character of a decimal digit (`'0'` for `0`, …, `'9'` for `9`). -/
def digitChar (d : Nat) : Char := Char.ofNat (48 + d)

/-- Numeric value of a digit character. -/
def chVal (c : Char) : Nat := c.toNat - 48

/-- Decimal digits of `n`, least-significant first; the first argument is
fuel (structural recursion), sufficient whenever it is at least `n`. -/
def decimalDigitsAux : Nat → Nat → List Nat
  | 0, _ => []
  | _ + 1, 0 => []
  | fuel + 1, n + 1 => (n + 1) % 10 :: decimalDigitsAux fuel ((n + 1) / 10)

/-- Decimal digits of `n`, least-significant first (empty for `0`). -/
def decimalDigits (n : Nat) : List Nat := decimalDigitsAux n n

/-- The decimal representation of `n ≥ 1` as characters, most-significant
first: the output of `std::to_string` on a positive value. -/
def decimalRepr (n : Nat) : List Char := (decimalDigits n).reverse.map digitChar

/-- Greedy decimal-digit parse: consume a maximal digit prefix, accumulating
the value; returns the value and the unconsumed remainder. -/
def parseDigitsAcc : Nat → List Char → Nat × List Char
  | acc, [] => (acc, [])
  | acc, c :: cs => if c.isDigit then parseDigitsAcc (10 * acc + chVal c) cs else (acc, c :: cs)

/-- C `isspace` in the default locale: space, `\t`, `\n`, `\v`, `\f`, `\r`. -/
def cIsSpace (c : Char) : Bool :=
  c == ' ' || c == '\t' || c == '\n' || c == Char.ofNat 11 || c == Char.ofNat 12 || c == '\r'

/-- Model of `std::strtol(p, &endp, 10)` on a NUL-free character list:
skip C whitespace, read an optional sign, then a maximal digit run.
Returns the parsed value and the unconsumed suffix; if no digit was
consumed, returns `0` together with the *original* list (the C call sets
`endp = p` when no conversion is performed). -/
def strtol10 (cs : List Char) : Int × List Char :=
  let stripped := cs.dropWhile cIsSpace
  let hasSign := stripped.headD ' ' == '+' || stripped.headD ' ' == '-'
  let sign : Int := if stripped.headD ' ' == '-' then -1 else 1
  let body := if hasSign then stripped.tail else stripped
  if (body.headD ' ').isDigit then
    (sign * ((parseDigitsAcc 0 body).1 : Int), (parseDigitsAcc 0 body).2)
  else (0, cs)

/-! ## Data model: `ShowInfo` and `Theater` -/

/-- The `ShowInfo` struct of `movie.cpp`. -/
structure ShowInfo where
  movieName : String
  start : Nat
  price : Int
  freeTickets : Int
  taken : List Bool
deriving DecidableEq, Repr

/-- The `ShowInfo` default constructor (empty name, zeroed fields). -/
instance : Inhabited ShowInfo := ⟨⟨"", 0, 0, 0, []⟩⟩

/-- `defaultTheaterCapacity` from `movie.cpp`. -/
def defaultTheaterCapacity : Nat := 20

/-- The `Theater` class state: name, per-show seat capacity, and the
insertion-ordered show collection `vShowInfo`. -/
structure Theater where
  theaterName : String
  maxSeats : Nat
  vShowInfo : List ShowInfo
deriving DecidableEq, Repr

/-- The `Theater(name, seats)` constructor: empty show collection. -/
def mkTheater (name : String) (seats : Nat := defaultTheaterCapacity) : Theater :=
  { theaterName := name, maxSeats := seats, vShowInfo := [] }

/-- `Theater::makeSeatId`: 0-based index to `"A1" .. "A{maxSeats}"`
(single-row model, `"A" + std::to_string(idx + 1)`). -/
def makeSeatId (idx : Nat) : String := "A" ++ String.mk (decimalRepr (idx + 1))

/-- `Theater::seatIndexFromId`: `"A1" .. "A{maxSeats}"` to 0-based index,
`-1` if invalid or out of range.  Mirrors the C++ line by line: length
check, leading-letter check (`'A'` or `'a'`), `strtol` on the suffix, full
consumption check (`*endp != '\0'`), then the range check on the value. -/
def Theater.seatIndexFromId (th : Theater) (id : String) : Int :=
  match id.data with
  | [] => -1
  | c :: rest =>
    if rest = [] then -1
    else if c ≠ 'A' ∧ c ≠ 'a' then -1
    else
      let r := strtol10 rest
      if r.2 ≠ [] then -1
      else if r.1 ≤ 0 ∨ (th.maxSeats : Int) < r.1 then -1
      else r.1 - 1

/-- `Theater::addShowInfo` (the `time_t` overload; the `std::tm` overload
only converts its argument with `mktime` first): append a show whose
`taken` vector is all-`false` of length `maxSeats` and whose `freeTickets`
is `maxSeats`. -/
def Theater.addShowInfo (th : Theater) (name : String) (start_t : Nat) (price : Int) : Theater :=
  { th with
    vShowInfo := th.vShowInfo ++
      [{ movieName := name, start := start_t, price := price,
         freeTickets := (th.maxSeats : Int), taken := List.replicate th.maxSeats false }] }

/-- `Theater::availableSeatIds`: scan `vShowInfo` for the first show with an
exact `(movieName, start)` match; for that show return `makeSeatId i` for
every `i < maxSeats` with `i < taken.size()` and `taken[i] = false`, in
ascending `i` order.  Empty when no show matches. -/
def Theater.availableSeatIds (th : Theater) (moviename : String) (start : Nat) : List String :=
  match th.vShowInfo.find? (fun s => s.movieName == moviename && s.start == start) with
  | none => []
  | some s =>
    ((List.range th.maxSeats).filter
      (fun i => decide (i < s.taken.length) && !(s.taken.getD i false))).map makeSeatId

/-! ## `Theater::bookSeats` -/

/-- The candidate-collection loop of `bookSeats`: indices `i` (counting from
the accumulator) of shows whose title matches and whose start normalizes to
`targetDate`, in index order. -/
def candidatesFrom (moviename : String) (targetDate : Nat) : Nat → List ShowInfo → List Nat
  | _, [] => []
  | i, s :: rest =>
    if s.movieName = moviename ∧ toLocalMidnight s.start = targetDate
    then i :: candidatesFrom moviename targetDate (i + 1) rest
    else candidatesFrom moviename targetDate (i + 1) rest

/-- Candidate show indices of a theater for a title and normalized day. -/
def dayCandidates (th : Theater) (moviename : String) (targetDate : Nat) : List Nat :=
  candidatesFrom moviename targetDate 0 th.vShowInfo

/-- Start time of the show at index `i` (`vShowInfo[i].start`). -/
def startAt (th : Theater) (i : Nat) : Nat := (th.vShowInfo.getD i default).start

/-- Insert an index into a list of indices kept ordered by show start time
(strict comparison on `start`, as in the `std::sort` comparator). -/
def insertByStart (th : Theater) (i : Nat) : List Nat → List Nat
  | [] => [i]
  | j :: rest =>
    if startAt th i < startAt th j then i :: j :: rest else j :: insertByStart th i rest

/-- Sorting the candidate indices ascending by `start`, refining the
`std::sort` call of `bookSeats` (whose order on shows with equal `start`
is unspecified; this picks one conformant order). -/
def sortByStart (th : Theater) : List Nat → List Nat
  | [] => []
  | i :: rest => insertByStart th i (sortByStart th rest)

/-- The show-resolution phase of `bookSeats` (steps before the lock):
collect candidates matching title and day; in time-match mode
(`show_no = 0`) pick the first candidate with the same local `HH:MM` as
`dt`; in ordinal mode (`show_no > 0`) sort candidates by `start` and pick
the `show_no`-th (1-based); fail on a negative `show_no` or an ordinal
beyond the candidate count. -/
def resolveShow (th : Theater) (moviename : String) (dt : Nat) (show_no : Int) : Option Nat :=
  let candidates := dayCandidates th moviename (toLocalMidnight dt)
  if candidates = [] then none
  else if show_no = 0 then
    candidates.find? (fun i => decide (hour_min_local (startAt th i) = hour_min_local dt))
  else if show_no < 0 then none
  else
    let sorted := sortByStart th candidates
    if sorted.length < show_no.toNat then none
    else sorted.get? (show_no.toNat - 1)

/-- The seat-validation loop of `bookSeats`: decode every requested id and
check it against the show's *current* `taken` vector; `none` if any id is
malformed, out of range, or already taken, otherwise the decoded indices in
request order. -/
def validateSeatIds (th : Theater) (s : ShowInfo) : List String → Option (List Nat)
  | [] => some []
  | id :: rest =>
    let idx := th.seatIndexFromId id
    if idx < 0 ∨ (th.maxSeats : Int) ≤ idx then none
    else if (s.taken.length : Int) ≤ idx then none
    else if s.taken.getD idx.toNat false then none
    else (validateSeatIds th s rest).map (fun l => idx.toNat :: l)

/-- The flip loop of `bookSeats`: mark every index in `idxs` taken. -/
def setAllTrue (taken : List Bool) : List Nat → List Bool
  | [] => taken
  | i :: rest => setAllTrue (taken.set i true) rest

/-- `Theater::bookSeats`: reject an empty request; resolve the show
(`resolveShow`); then — inside the venue mutex — re-check the chosen index,
re-validate title/day (and `HH:MM` in time-match mode), validate every
requested seat id against the current seat map, and only if all pass flip
the seats and decrement `freeTickets` by the number of decoded indices.
Returns the success flag together with the (possibly updated) theater. -/
def Theater.bookSeats (th : Theater) (moviename : String) (dt : Nat)
    (seatIds : List String) (show_no : Int) : Bool × Theater :=
  if seatIds = [] then (false, th)
  else
    match resolveShow th moviename dt show_no with
    | none => (false, th)
    | some chosenIdx =>
      if hlt : chosenIdx < th.vShowInfo.length then
        let s := th.vShowInfo.get ⟨chosenIdx, hlt⟩
        if s.movieName ≠ moviename ∨ toLocalMidnight s.start ≠ toLocalMidnight dt then (false, th)
        else if show_no = 0 ∧ hour_min_local s.start ≠ hour_min_local dt then (false, th)
        else
          match validateSeatIds th s seatIds with
          | none => (false, th)
          | some idxs =>
            (true,
             { th with
               vShowInfo := th.vShowInfo.set chosenIdx
                 { s with
                   taken := setAllTrue s.taken idxs,
                   freeTickets := s.freeTickets - (idxs.length : Int) } })
      else (false, th)

/-- Transcribed from the spec's words for `freeSeatIds` (§4.2): "scans
entries for an exact `(title, start)` match, returns identifiers for every
index whose seat-map entry is `false`, in ascending index order.  Returns
empty sequence (not an error) if no matching show or no free seats." -/
def freeSeatIdsSpec (cap : Nat) (moviename : String) (start : Nat) : List ShowInfo → List String
  | [] => []
  | s :: rest =>
    if s.movieName = moviename ∧ s.start = start then
      ((List.range cap).filter
        (fun i => decide (i < s.taken.length) && !(s.taken.getD i false))).map makeSeatId
    else freeSeatIdsSpec cap moviename start rest

/-! ## Helper lemmas: list updates -/

theorem getD_set_ne {α : Type} {l : List α} {i j : Nat} (h : j ≠ i) (a d : α) :
    (l.set i a).getD j d = l.getD j d := by
  rw [List.getD_eq_getElem?_getD, List.getD_eq_getElem?_getD,
    List.getElem?_set_ne (by omega)]

theorem getD_set_self {α : Type} {l : List α} {i : Nat} (h : i < l.length) (a d : α) :
    (l.set i a).getD i d = a := by
  rw [List.getD_eq_getElem?_getD, List.getElem?_set_self h]
  rfl

theorem length_setAllTrue (taken : List Bool) (idxs : List Nat) :
    (setAllTrue taken idxs).length = taken.length := by
  induction idxs generalizing taken with
  | nil => rfl
  | cons i rest ih => simp [setAllTrue, ih, List.length_set]

theorem setAllTrue_preserves_true {taken : List Bool} {i : Nat} (idxs : List Nat)
    (h : taken.getD i false = true) : (setAllTrue taken idxs).getD i false = true := by
  induction idxs generalizing taken with
  | nil => exact h
  | cons j rest ih =>
    refine ih ?_
    rcases eq_or_ne i j with rfl | hne
    · rcases Nat.lt_or_ge i taken.length with hlt | hge
      · rw [getD_set_self hlt]
      · rw [List.set_eq_of_length_le hge]; exact h
    · rw [getD_set_ne hne]; exact h

theorem setAllTrue_getD_of_mem {taken : List Bool} {idxs : List Nat} {i : Nat}
    (hmem : i ∈ idxs) (hlen : i < taken.length) :
    (setAllTrue taken idxs).getD i false = true := by
  induction idxs generalizing taken with
  | nil => cases hmem
  | cons j rest ih =>
    rcases List.mem_cons.mp hmem with rfl | hmem'
    · exact setAllTrue_preserves_true rest (getD_set_self hlen true false)
    · exact ih hmem' (by rwa [List.length_set])

/-! ## Helper lemmas: seat validation -/

theorem validateSeatIds_length {th : Theater} {s : ShowInfo} {ids : List String}
    {idxs : List Nat} (h : validateSeatIds th s ids = some idxs) :
    idxs.length = ids.length := by
  induction ids generalizing idxs with
  | nil => simp [validateSeatIds] at h; simp [← h]
  | cons id rest ih =>
    simp only [validateSeatIds] at h
    split at h
    · cases h
    · split at h
      · cases h
      · split at h
        · cases h
        · rcases Option.map_eq_some'.mp h with ⟨l, hl, rfl⟩
          simp [ih hl]

theorem validateSeatIds_sound {th : Theater} {s : ShowInfo} {ids : List String}
    {idxs : List Nat} (h : validateSeatIds th s ids = some idxs) :
    ∀ id ∈ ids, ∃ i : Nat, th.seatIndexFromId id = (i : Int) ∧ i ∈ idxs ∧
      i < s.taken.length ∧ s.taken.getD i false = false := by
  induction ids generalizing idxs with
  | nil => intro id hid; cases hid
  | cons id0 rest ih =>
    intro id hid
    simp only [validateSeatIds] at h
    split at h
    · cases h
    · rename_i hval
      push_neg at hval
      split at h
      · cases h
      · rename_i hlen
        push_neg at hlen
        split at h
        · cases h
        · rename_i htaken
          rcases Option.map_eq_some'.mp h with ⟨l, hl, rfl⟩
          rcases List.mem_cons.mp hid with rfl | hmem
          · refine ⟨(th.seatIndexFromId id).toNat, ?_, List.mem_cons_self _ _, ?_, ?_⟩
            · rw [Int.toNat_of_nonneg hval.1]
            · omega
            · simpa using htaken
          · rcases ih hl id hmem with ⟨i, h1, h2, h3, h4⟩
            exact ⟨i, h1, List.mem_cons_of_mem _ h2, h3, h4⟩

/-! ## C1: `bookSeats` is all-or-nothing -/

/-- **C1**: `bookSeats` is all-or-nothing with no side effect on failure:
for every theater state, title, reference instant, seat-id list and
ordinal, the call either returns `true` and books every requested seat of
exactly one resolved show (every other show, the name and the capacity are
untouched, and each requested id decodes to a seat that was free before and
is taken after), or returns `false` and leaves the theater — in particular
every show's seat map and `freeTickets` — exactly as it was. -/
theorem bookSeats_all_or_nothing (th : Theater) (m : String) (dt : Nat)
    (ids : List String) (no : Int) :
    ((th.bookSeats m dt ids no).1 = false → (th.bookSeats m dt ids no).2 = th) ∧
    ((th.bookSeats m dt ids no).1 = true →
      ∃ j, j < th.vShowInfo.length ∧
        (th.bookSeats m dt ids no).2.theaterName = th.theaterName ∧
        (th.bookSeats m dt ids no).2.maxSeats = th.maxSeats ∧
        (th.bookSeats m dt ids no).2.vShowInfo.length = th.vShowInfo.length ∧
        (∀ k, k ≠ j → (th.bookSeats m dt ids no).2.vShowInfo.get? k = th.vShowInfo.get? k) ∧
        (∀ id ∈ ids, ∃ i : Nat, th.seatIndexFromId id = (i : Int) ∧
          (th.vShowInfo.getD j default).taken.getD i false = false ∧
          ((th.bookSeats m dt ids no).2.vShowInfo.getD j default).taken.getD i false = true)) := by
  unfold Theater.bookSeats
  split
  · exact ⟨fun _ => rfl, by simp⟩
  · split
    · exact ⟨fun _ => rfl, by simp⟩
    · rename_i chosenIdx hres
      split
      · rename_i hlt
        dsimp only
        split
        · exact ⟨fun _ => rfl, by simp⟩
        · split
          · exact ⟨fun _ => rfl, by simp⟩
          · split
            · exact ⟨fun _ => rfl, by simp⟩
            · rename_i idxs hval
              refine ⟨by simp, fun _ => ?_⟩
              have hgetD : th.vShowInfo.getD chosenIdx default =
                  th.vShowInfo.get ⟨chosenIdx, hlt⟩ := by
                rw [List.getD_eq_getElem?_getD, List.getElem?_eq_getElem hlt]
                rfl
              refine ⟨chosenIdx, hlt, rfl, rfl, by simp [List.length_set], ?_, ?_⟩
              · intro k hk
                simp only
                rw [List.get?_eq_getElem?, List.get?_eq_getElem?,
                  List.getElem?_set_ne (by omega)]
              · intro id hid
                rcases validateSeatIds_sound hval id hid with ⟨i, h1, h2, h3, h4⟩
                refine ⟨i, h1, by rw [hgetD]; exact h4, ?_⟩
                simp only
                rw [getD_set_self hlt]
                exact setAllTrue_getD_of_mem h2 h3
      · exact ⟨fun _ => rfl, by simp⟩

/-- Witness for `bookSeats_all_or_nothing` at a concrete input: a booking
against a theater with no shows fails and leaves the theater unchanged. -/
theorem bookSeats_all_or_nothing_witness :
    ((mkTheater "T" 2).bookSeats "M" 0 ["A1"] 0).2 = mkTheater "T" 2 :=
  (bookSeats_all_or_nothing (mkTheater "T" 2) "M" 0 ["A1"] 0).1 (by decide)

/-! ## C8: empty requests are rejected -/

/-- **C8**: for every theater state, title, reference instant and ordinal,
`bookSeats` called with an empty seat-id list returns `false` and changes no
state — even when a matching show with free seats exists, since the theater
is universally quantified. -/
theorem bookSeats_empty_request (th : Theater) (m : String) (dt : Nat) (no : Int) :
    th.bookSeats m dt [] no = (false, th) := by
  simp [Theater.bookSeats]

/-! ## C2: the `freeTickets` invariant is broken by duplicate seat ids -/

/-- **C2** (code bug): the claimed invariant `freeTickets = number of false
entries of taken` is broken by the code.  On a capacity-6 theater with one
show, booking the duplicate request `["A1", "A1"]` succeeds (both
occurrences are validated against the same pre-booking seat map), marks one
seat taken, and decrements `freeTickets` by 2: afterwards `freeTickets = 4`
while the `taken` vector has 5 `false` entries. -/
theorem bookSeats_duplicate_ids_break_freeTickets :
    (((mkTheater "T" 6).addShowInfo "M" 64800 0).bookSeats "M" 64800 ["A1", "A1"] 0).1 = true ∧
    (((((mkTheater "T" 6).addShowInfo "M" 64800 0).bookSeats "M" 64800
        ["A1", "A1"] 0).2.vShowInfo.getD 0 default).freeTickets = 4) ∧
    (((((mkTheater "T" 6).addShowInfo "M" 64800 0).bookSeats "M" 64800
        ["A1", "A1"] 0).2.vShowInfo.getD 0 default).taken.count false = 5) := by
  decide

/-! ## C10: `bookSeats` does not deduplicate the request -/

/-- **C10**: `bookSeats` never deduplicates the seat-id list: every
successful call decrements the resolved show's `freeTickets` by the length
of the request list (not by the number of distinct seats).  Concretely, on
a capacity-6 theater the duplicate request `["A2", "A2"]` succeeds, the
seat is marked taken once, and `freeTickets` drops by 2 to 4. -/
theorem bookSeats_no_dedup :
    (∀ (th : Theater) (m : String) (dt : Nat) (ids : List String) (no : Int) (th' : Theater),
      th.bookSeats m dt ids no = (true, th') →
      ∃ j, j < th.vShowInfo.length ∧
        (th'.vShowInfo.getD j default).freeTickets =
          (th.vShowInfo.getD j default).freeTickets - (ids.length : Int)) ∧
    ((((mkTheater "T" 6).addShowInfo "M" 64800 0).bookSeats "M" 64800 ["A2", "A2"] 0).1 = true ∧
      ((((mkTheater "T" 6).addShowInfo "M" 64800 0).bookSeats "M" 64800
          ["A2", "A2"] 0).2.vShowInfo.getD 0 default).taken =
        [false, true, false, false, false, false] ∧
      ((((mkTheater "T" 6).addShowInfo "M" 64800 0).bookSeats "M" 64800
          ["A2", "A2"] 0).2.vShowInfo.getD 0 default).freeTickets = 4) := by
  constructor
  · intro th m dt ids no th' h
    unfold Theater.bookSeats at h
    split at h
    · simp at h
    · split at h
      · simp at h
      · rename_i chosenIdx hres
        split at h
        · rename_i hlt
          dsimp only at h
          split at h
          · simp at h
          · split at h
            · simp at h
            · split at h
              · simp at h
              · rename_i idxs hval
                have hth' : th' = { th with
                    vShowInfo := th.vShowInfo.set chosenIdx
                      { th.vShowInfo.get ⟨chosenIdx, hlt⟩ with
                        taken := setAllTrue (th.vShowInfo.get ⟨chosenIdx, hlt⟩).taken idxs,
                        freeTickets := (th.vShowInfo.get ⟨chosenIdx, hlt⟩).freeTickets -
                          (idxs.length : Int) } } := by
                  have := congrArg Prod.snd h
                  simpa using this.symm
                have hgetD : th.vShowInfo.getD chosenIdx default =
                    th.vShowInfo.get ⟨chosenIdx, hlt⟩ := by
                  rw [List.getD_eq_getElem?_getD, List.getElem?_eq_getElem hlt]
                  rfl
                refine ⟨chosenIdx, hlt, ?_⟩
                rw [hth', hgetD]
                simp only
                rw [getD_set_self hlt]
                simp [validateSeatIds_length hval]
        · simp at h
  · exact ⟨by decide, by decide, by decide⟩

/-- Witness for `bookSeats_no_dedup` at a concrete input: the duplicate
request `["A2", "A2"]` on a fresh capacity-6 show decrements `freeTickets`
by the request length 2. -/
theorem bookSeats_no_dedup_witness :
    ∃ j, j < ((mkTheater "T" 6).addShowInfo "M" 64800 0).vShowInfo.length ∧
      ((Theater.mk "T" 6 [ShowInfo.mk "M" 64800 0 4
          [false, true, false, false, false, false]]).vShowInfo.getD j default).freeTickets =
        (((mkTheater "T" 6).addShowInfo "M" 64800 0).vShowInfo.getD j default).freeTickets -
          ((["A2", "A2"] : List String).length : Int) :=
  bookSeats_no_dedup.1 ((mkTheater "T" 6).addShowInfo "M" 64800 0) "M" 64800 ["A2", "A2"] 0
    (Theater.mk "T" 6 [ShowInfo.mk "M" 64800 0 4 [false, true, false, false, false, false]])
    (by decide)

/-! ## Helper lemmas: decimal digits and parsing -/

theorem digitChar_isDigit {d : Nat} (h : d < 10) : (digitChar d).isDigit = true := by
  interval_cases d <;> decide

theorem chVal_digitChar {d : Nat} (h : d < 10) : chVal (digitChar d) = d := by
  interval_cases d <;> decide

theorem digitChar_not_space {d : Nat} (h : d < 10) : cIsSpace (digitChar d) = false := by
  interval_cases d <;> decide

theorem digitChar_ne_plus {d : Nat} (h : d < 10) : (digitChar d == '+') = false := by
  interval_cases d <;> decide

theorem digitChar_ne_minus {d : Nat} (h : d < 10) : (digitChar d == '-') = false := by
  interval_cases d <;> decide

theorem decimalDigitsAux_lt_ten :
    ∀ fuel n : Nat, ∀ d ∈ decimalDigitsAux fuel n, d < 10 := by
  intro fuel
  induction fuel with
  | zero => intro n d hd; cases hd
  | succ fuel ih =>
    intro n d hd
    match n with
    | 0 => cases hd
    | n + 1 =>
      simp only [decimalDigitsAux] at hd
      rcases List.mem_cons.mp hd with rfl | hd'
      · exact Nat.mod_lt _ (by omega)
      · exact ih _ d hd'

theorem decimalDigitsAux_ofDigits :
    ∀ fuel n : Nat, n ≤ fuel → Nat.ofDigits 10 (decimalDigitsAux fuel n) = n := by
  intro fuel
  induction fuel with
  | zero => intro n h; interval_cases n; rfl
  | succ fuel ih =>
    intro n h
    match n with
    | 0 => rfl
    | n + 1 =>
      have hdiv : (n + 1) / 10 ≤ fuel := by
        have := Nat.div_lt_self (Nat.succ_pos n) (by omega : 1 < 10)
        omega
      simp only [decimalDigitsAux, Nat.ofDigits_cons, ih _ hdiv]
      omega

theorem decimalDigits_ofDigits (n : Nat) : Nat.ofDigits 10 (decimalDigits n) = n :=
  decimalDigitsAux_ofDigits n n le_rfl

theorem decimalDigits_lt_ten {n : Nat} : ∀ d ∈ decimalDigits n, d < 10 :=
  decimalDigitsAux_lt_ten n n

theorem decimalDigits_ne_nil {n : Nat} (h : 0 < n) : decimalDigits n ≠ [] := by
  match n, h with
  | n + 1, _ => simp [decimalDigits, decimalDigitsAux]

theorem parseDigitsAcc_digits :
    ∀ ds : List Nat, (∀ d ∈ ds, d < 10) → ∀ acc : Nat,
      parseDigitsAcc acc (ds.map digitChar) =
        (acc * 10 ^ ds.length + Nat.ofDigits 10 ds.reverse, []) := by
  intro ds
  induction ds with
  | nil => intro _ acc; simp [parseDigitsAcc, Nat.ofDigits_nil]
  | cons d rest ih =>
    intro hlt acc
    have hd : d < 10 := hlt d (List.mem_cons_self _ _)
    simp only [List.map_cons, parseDigitsAcc, digitChar_isDigit hd, if_true,
      chVal_digitChar hd]
    rw [ih (fun x hx => hlt x (List.mem_cons_of_mem _ hx)) (10 * acc + d)]
    simp only [List.reverse_cons, Nat.ofDigits_append, Nat.ofDigits_singleton,
      List.length_reverse, List.length_cons, Prod.mk.injEq, and_true]
    ring

theorem strtol10_digits {ds : List Nat} (hne : ds ≠ []) (hlt : ∀ d ∈ ds, d < 10) :
    strtol10 (ds.map digitChar) =
      (((Nat.ofDigits 10 ds.reverse : Nat) : Int), ([] : List Char)) := by
  match ds, hne with
  | d :: rest, _ =>
    have hd : d < 10 := hlt d (List.mem_cons_self _ _)
    simp only [strtol10, List.map_cons, List.dropWhile_cons, digitChar_not_space hd,
      Bool.false_eq_true, if_false, List.headD_cons, digitChar_ne_plus hd,
      digitChar_ne_minus hd, Bool.or_self, Bool.false_eq_true, if_false,
      digitChar_isDigit hd, if_true]
    rw [show (digitChar d :: List.map digitChar rest) = (d :: rest).map digitChar from rfl,
      parseDigitsAcc_digits (d :: rest) hlt 0]
    simp

theorem strtol10_decimalRepr {n : Nat} (h : 0 < n) :
    strtol10 (decimalRepr n) = ((n : Int), []) := by
  have hne : (decimalDigits n).reverse ≠ [] := by
    simpa using decimalDigits_ne_nil h
  have hlt : ∀ d ∈ (decimalDigits n).reverse, d < 10 := by
    intro d hd
    exact decimalDigits_lt_ten d (List.mem_reverse.mp hd)
  rw [decimalRepr, strtol10_digits hne hlt, List.reverse_reverse, decimalDigits_ofDigits]

theorem data_append_mk (s : String) (l : List Char) : (s ++ String.mk l).data = s.data ++ l := by
  simp [String.data_append]

theorem decimalRepr_ne_nil {n : Nat} (h : 0 < n) : decimalRepr n ≠ [] := by
  simp only [decimalRepr, ne_eq, List.map_eq_nil_iff, List.reverse_eq_nil_iff]
  exact decimalDigits_ne_nil h

theorem seatId_decode_cons {th : Theater} {i : Nat} (h : i < th.maxSeats) (c : Char)
    (hc : c = 'A' ∨ c = 'a') :
    th.seatIndexFromId (String.mk (c :: decimalRepr (i + 1))) = (i : Int) := by
  unfold Theater.seatIndexFromId
  dsimp only
  rw [if_neg (decimalRepr_ne_nil (Nat.succ_pos i))]
  rw [if_neg (by rcases hc with rfl | rfl <;> simp)]
  rw [strtol10_decimalRepr (Nat.succ_pos i)]
  rw [if_neg (by simp)]
  rw [if_neg (by push_cast; omega)]
  push_cast
  ring

/-! ## C5: the seat-id codec -/

/-- **C5** (amended): the seat-id codec.  Encoding index `i` yields
`"A"` followed by the decimal of `i + 1`, and for every `i < capacity`
decoding that identifier returns `i` (so the codec is a deterministic
bijection with `[0, capacity)`); a lowercase `'a'` is accepted as
equivalent; any identifier of length `< 2` or with another leading letter
is invalid (`-1`); a suffix is rejected exactly when `strtol` does not
consume it in full (note `strtol` also accepts leading whitespace and a
sign before the digits), and a fully parsed number `≤ 0` or `> capacity`
is rejected. -/
theorem seatId_codec (th : Theater) :
    (∀ i : Nat, i < th.maxSeats → th.seatIndexFromId (makeSeatId i) = (i : Int)) ∧
    (∀ i : Nat, i < th.maxSeats →
      th.seatIndexFromId ("a" ++ String.mk (decimalRepr (i + 1))) = (i : Int)) ∧
    (∀ id : String, id.data.length < 2 → th.seatIndexFromId id = -1) ∧
    (∀ (c : Char) (rest : List Char), c ≠ 'A' → c ≠ 'a' →
      th.seatIndexFromId (String.mk (c :: rest)) = -1) ∧
    (∀ (c : Char) (rest : List Char), (strtol10 rest).2 ≠ [] →
      th.seatIndexFromId (String.mk (c :: rest)) = -1) ∧
    (∀ (c : Char) (rest : List Char), (strtol10 rest).2 = [] →
      ((strtol10 rest).1 ≤ 0 ∨ (th.maxSeats : Int) < (strtol10 rest).1) →
      th.seatIndexFromId (String.mk (c :: rest)) = -1) := by
  refine ⟨?_, ?_, ?_, ?_, ?_, ?_⟩
  · intro i h
    rw [show makeSeatId i = String.mk ('A' :: decimalRepr (i + 1)) from rfl]
    exact seatId_decode_cons h 'A' (Or.inl rfl)
  · intro i h
    rw [show ("a" ++ String.mk (decimalRepr (i + 1))) =
      String.mk ('a' :: decimalRepr (i + 1)) from rfl]
    exact seatId_decode_cons h 'a' (Or.inr rfl)
  · intro id hlen
    obtain ⟨data⟩ := id
    match data, hlen with
    | [], _ => rfl
    | c :: rest, hlen =>
      have hr : rest = [] := by
        simp only [String.data] at hlen
        simp only [List.length_cons] at hlen
        exact List.length_eq_zero.mp (by omega)
      unfold Theater.seatIndexFromId
      dsimp only
      rw [if_pos hr]
  · intro c rest hcA hca
    unfold Theater.seatIndexFromId
    dsimp only
    by_cases hr : rest = []
    · rw [if_pos hr]
    · rw [if_neg hr, if_pos ⟨hcA, hca⟩]
  · intro c rest h2
    unfold Theater.seatIndexFromId
    dsimp only
    by_cases hr : rest = []
    · rw [if_pos hr]
    · rw [if_neg hr]
      by_cases hc : c ≠ 'A' ∧ c ≠ 'a'
      · rw [if_pos hc]
      · rw [if_neg hc, if_pos h2]
  · intro c rest h2 hrange
    unfold Theater.seatIndexFromId
    dsimp only
    by_cases hr : rest = []
    · rw [if_pos hr]
    · rw [if_neg hr]
      by_cases hc : c ≠ 'A' ∧ c ≠ 'a'
      · rw [if_pos hc]
      · rw [if_neg hc, if_neg (by simp [h2]), if_pos hrange]

/-- Witness for `seatId_codec` at a concrete input: on a capacity-6
theater, decoding the encoding of index 3 returns 3. -/
theorem seatId_codec_witness :
    (mkTheater "T" 6).seatIndexFromId (makeSeatId 3) = ((3 : Nat) : Int) :=
  (seatId_codec (mkTheater "T" 6)).1 3 (by decide)

/-- Counterexample to **C5** as stated: the identifier `"A 5"` has the
non-numeric suffix `" 5"` (it contains a character that is not a decimal
digit), yet on a capacity-6 theater it decodes to seat index 4 instead of
being rejected with `-1` — `std::strtol` skips the leading space. -/
theorem seatId_space_suffix_accepted :
    (mkTheater "T" 6).seatIndexFromId "A 5" = 4 ∧
    ¬((mkTheater "T" 6).seatIndexFromId "A 5" = -1) ∧
    (" 5".data.all Char.isDigit = false) := by
  decide

/-! ## Helper lemmas: replicate and scanning for a show -/

theorem getD_replicate_self {α : Type} (n i : Nat) (a : α) :
    (List.replicate n a).getD i a = a := by
  induction n generalizing i with
  | zero => rfl
  | succ n ih =>
    cases i with
    | zero => rfl
    | succ i => exact ih i

theorem find?_scan_eq (cap : Nat) (m : String) (t : Nat) (l : List ShowInfo) :
    (match l.find? (fun s => s.movieName == m && s.start == t) with
     | none => []
     | some s => ((List.range cap).filter
         (fun i => decide (i < s.taken.length) && !(s.taken.getD i false))).map makeSeatId) =
    freeSeatIdsSpec cap m t l := by
  induction l with
  | nil => rfl
  | cons s rest ih =>
    rw [List.find?_cons]
    cases hb : (s.movieName == m && s.start == t) with
    | true =>
      have hcond : s.movieName = m ∧ s.start = t := by
        simpa [Bool.and_eq_true, beq_iff_eq] using hb
      simp only [freeSeatIdsSpec]
      rw [if_pos hcond]
    | false =>
      have hcond : ¬(s.movieName = m ∧ s.start = t) := by
        intro hc
        rw [hc.1, hc.2] at hb
        simp at hb
      simp only [freeSeatIdsSpec]
      rw [if_neg hcond]
      exact ih

/-! ## C7: `availableSeatIds` returns the free seats of the first match -/

/-- **C7**: `availableSeatIds title start` refines the spec's scan: it
returns the identifiers of exactly the free indices of the *first* show
with an exact `(title, start)` match (`freeSeatIdsSpec` is transcribed from
the spec's words), returns `[]` when no show matches, and the returned
identifiers are the images of a strictly ascending index list each of
whose indices is in range and free in that first match.  (In this
functional embedding the query is a pure function of the theater, so it
mutates no state by construction.) -/
theorem availableSeatIds_spec (th : Theater) (m : String) (t : Nat) :
    (th.availableSeatIds m t = freeSeatIdsSpec th.maxSeats m t th.vShowInfo) ∧
    (th.vShowInfo.find? (fun s => s.movieName == m && s.start == t) = none →
      th.availableSeatIds m t = []) ∧
    (∃ idxs : List Nat, th.availableSeatIds m t = idxs.map makeSeatId ∧
      List.Pairwise (· < ·) idxs ∧
      ∀ i ∈ idxs, i < th.maxSeats ∧
        ∃ s, th.vShowInfo.find? (fun s => s.movieName == m && s.start == t) = some s ∧
          i < s.taken.length ∧ s.taken.getD i false = false) := by
  refine ⟨?_, ?_, ?_⟩
  · rw [← find?_scan_eq th.maxSeats m t th.vShowInfo]
    rfl
  · intro hnone
    unfold Theater.availableSeatIds
    rw [hnone]
  · unfold Theater.availableSeatIds
    cases hf : th.vShowInfo.find? (fun s => s.movieName == m && s.start == t) with
    | none => exact ⟨[], rfl, List.Pairwise.nil, by intro i hi; cases hi⟩
    | some s =>
      refine ⟨_, rfl, ?_, ?_⟩
      · exact List.Pairwise.sublist (List.filter_sublist _) (List.pairwise_lt_range _)
      · intro i hi
        have hmem := List.mem_filter.mp hi
        have hi_range : i < th.maxSeats := List.mem_range.mp hmem.1
        have hcond := hmem.2
        simp only [Bool.and_eq_true, decide_eq_true_eq, Bool.not_eq_true'] at hcond
        exact ⟨hi_range, s, rfl, hcond.1, hcond.2⟩

/-- Witness for `availableSeatIds_spec` at a concrete input: on a theater
with no shows the query returns the empty list. -/
theorem availableSeatIds_spec_witness :
    (mkTheater "T" 2).availableSeatIds "M" 5 = [] :=
  (availableSeatIds_spec (mkTheater "T" 2) "M" 5).2.1 (by rfl)

/-! ## C6: the free-seat query after adding a show -/

/-- **C6** (amended): provided the venue has no existing show with the same
`(title, start)` key, immediately after `addShowInfo` the free-seat query
for that key returns exactly `capacity` identifiers,
`makeSeatId 0 = "A1"` through `makeSeatId (capacity-1) = "A{capacity}"`,
in ascending order; unconditionally, the newly appended show has an
all-`false` seat map of length `capacity` and `freeTickets = capacity`.
(Without that proviso the claim fails: the query resolves the *first*
matching show, which may be an older duplicate — see
`freshShow_shadowed_by_duplicate`.) -/
theorem freshShow_availableSeatIds :
    (∀ (th : Theater) (name : String) (t : Nat) (price : Int),
      (th.addShowInfo name t price).vShowInfo.getLast? =
        some { movieName := name, start := t, price := price,
               freeTickets := (th.maxSeats : Int),
               taken := List.replicate th.maxSeats false }) ∧
    (∀ (th : Theater) (name : String) (t : Nat) (price : Int),
      (∀ s ∈ th.vShowInfo, ¬(s.movieName = name ∧ s.start = t)) →
      (th.addShowInfo name t price).availableSeatIds name t =
        (List.range th.maxSeats).map makeSeatId) := by
  constructor
  · intro th name t price
    exact List.getLast?_concat _
  · intro th name t price hnodup
    unfold Theater.availableSeatIds Theater.addShowInfo
    dsimp only
    rw [List.find?_append]
    have hnone : th.vShowInfo.find? (fun s => s.movieName == name && s.start == t) = none := by
      rw [List.find?_eq_none]
      intro s hs
      simp only [Bool.and_eq_true, beq_iff_eq, not_and]
      intro h1 h2
      exact hnodup s hs ⟨h1, h2⟩
    rw [hnone]
    simp only [Option.none_or]
    rw [List.find?_cons]
    simp only [beq_self_eq_true, Bool.and_self]
    congr 1
    apply List.filter_eq_self.mpr
    intro i hi
    have hlt : i < th.maxSeats := List.mem_range.mp hi
    simp [List.length_replicate, hlt, getD_replicate_self]

/-- Witness for `freshShow_availableSeatIds` at a concrete input: a fresh
capacity-2 theater has no duplicate show, and after adding one show the
query returns the identifiers of indices 0 and 1. -/
theorem freshShow_availableSeatIds_witness :
    ((mkTheater "T" 2).addShowInfo "M" 7 0).availableSeatIds "M" 7 =
      (List.range 2).map makeSeatId :=
  freshShow_availableSeatIds.2 (mkTheater "T" 2) "M" 7 0 (by simp [mkTheater])

/-- Counterexample to **C6** as stated: a capacity-1 venue holds a show
`("M", 500)` whose only seat is booked; `addShowInfo` then adds a *fresh*
show with the same key.  Immediately after that `addShowInfo`, the
free-seat query for the new show's key returns `[]` — not the `capacity`
identifiers `["A1"]` the claim requires — because the query resolves the
older, fully booked duplicate first. -/
theorem freshShow_shadowed_by_duplicate :
    (((((mkTheater "T" 1).addShowInfo "M" 500 0).bookSeats "M" 500
        ["A1"] 0).2).addShowInfo "M" 500 0).availableSeatIds "M" 500 = [] ∧
    (List.range 1).map makeSeatId = ["A1"] := by
  decide

/-! ## Helper lemmas: candidate collection and first-match search -/

theorem candidatesFrom_ge (m : String) (d : Nat) :
    ∀ (l : List ShowInfo) (i j : Nat), j ∈ candidatesFrom m d i l → i ≤ j := by
  intro l
  induction l with
  | nil => intro i j h; cases h
  | cons s rest ih =>
    intro i j h
    simp only [candidatesFrom] at h
    split at h
    · rcases List.mem_cons.mp h with rfl | h'
      · exact le_rfl
      · exact le_trans (Nat.le_succ i) (ih (i + 1) j h')
    · exact le_trans (Nat.le_succ i) (ih (i + 1) j h)

theorem candidatesFrom_pairwise (m : String) (d : Nat) :
    ∀ (l : List ShowInfo) (i : Nat), List.Pairwise (· < ·) (candidatesFrom m d i l) := by
  intro l
  induction l with
  | nil => intro i; exact List.Pairwise.nil
  | cons s rest ih =>
    intro i
    simp only [candidatesFrom]
    split
    · refine List.pairwise_cons.mpr ⟨?_, ih (i + 1)⟩
      intro j hj
      exact lt_of_lt_of_le (Nat.lt_succ_self i) (candidatesFrom_ge m d rest (i + 1) j hj)
    · exact ih (i + 1)

theorem find?_first_of_pairwise {p : Nat → Bool} :
    ∀ {l : List Nat}, List.Pairwise (· < ·) l → ∀ {x : Nat}, l.find? p = some x →
      ∀ y ∈ l, y < x → p y = false := by
  intro l
  induction l with
  | nil => intro _ x h; cases h
  | cons a rest ih =>
    intro hpw x hfind y hy hyx
    rw [List.find?_cons] at hfind
    cases hpa : p a
    · rw [hpa] at hfind
      rcases List.mem_cons.mp hy with rfl | hy'
      · exact hpa
      · exact ih (List.pairwise_cons.mp hpw).2 hfind y hy' hyx
    · rw [hpa] at hfind
      cases hfind
      rcases List.mem_cons.mp hy with rfl | hy'
      · exact absurd hyx (lt_irrefl _)
      · exact absurd hyx (not_lt_of_gt ((List.pairwise_cons.mp hpw).1 y hy'))

theorem bookSeats_of_resolve_none {th : Theater} {m : String} {dt : Nat} {no : Int}
    (h : resolveShow th m dt no = none) (ids : List String) :
    th.bookSeats m dt ids no = (false, th) := by
  unfold Theater.bookSeats
  split
  · rfl
  · rw [h]

theorem resolveShow_timeMatch {th : Theater} {m : String} {dt : Nat} :
    resolveShow th m dt 0 =
      if dayCandidates th m (toLocalMidnight dt) = [] then none
      else (dayCandidates th m (toLocalMidnight dt)).find?
        (fun i => decide (hour_min_local (startAt th i) = hour_min_local dt)) := by
  unfold resolveShow
  dsimp only
  by_cases hc : dayCandidates th m (toLocalMidnight dt) = []
  · rw [if_pos hc, if_pos hc]
  · rw [if_neg hc, if_neg hc, if_pos rfl]

/-! ## C4: time-match mode -/

/-- **C4**: in time-match mode (`ordinal = 0`) `bookSeats` selects among
the candidates with matching title and normalized day the one whose start
has the same local hour and minute as the reference instant: if no
candidate matches that `HH:MM` the call fails with no state change; if the
call succeeds, the resolved candidate matches the `HH:MM` and every
candidate at a smaller index (i.e. earlier in collection order) does not
match it; and when two candidate shows share title, start day and exact
`HH:MM` — two shows with identical `(title, start)` added one after the
other — the first one in insertion order (index 0) is selected. -/
theorem bookSeats_time_match_resolution :
    (∀ (th : Theater) (m : String) (dt : Nat) (ids : List String),
      (∀ i ∈ dayCandidates th m (toLocalMidnight dt),
        hour_min_local (startAt th i) ≠ hour_min_local dt) →
      th.bookSeats m dt ids 0 = (false, th)) ∧
    (∀ (th : Theater) (m : String) (dt : Nat) (ids : List String),
      (th.bookSeats m dt ids 0).1 = true →
      ∃ j, resolveShow th m dt 0 = some j ∧
        j ∈ dayCandidates th m (toLocalMidnight dt) ∧
        hour_min_local (startAt th j) = hour_min_local dt ∧
        ∀ k ∈ dayCandidates th m (toLocalMidnight dt), k < j →
          hour_min_local (startAt th k) ≠ hour_min_local dt) ∧
    (∀ (name M : String) (cap : Nat) (s : Nat) (p1 p2 : Int),
      resolveShow (((mkTheater name cap).addShowInfo M s p1).addShowInfo M s p2) M s 0 =
        some 0) := by
  refine ⟨?_, ?_, ?_⟩
  · intro th m dt ids hmiss
    refine bookSeats_of_resolve_none ?_ ids
    rw [resolveShow_timeMatch]
    by_cases hc : dayCandidates th m (toLocalMidnight dt) = []
    · rw [if_pos hc]
    · rw [if_neg hc, List.find?_eq_none]
      intro i hi
      simp only [decide_eq_true_eq]
      exact hmiss i hi
  · intro th m dt ids hsucc
    unfold Theater.bookSeats at hsucc
    split at hsucc
    · simp at hsucc
    · split at hsucc
      · simp at hsucc
      · rename_i chosenIdx hres
        have hfind : (dayCandidates th m (toLocalMidnight dt)).find?
            (fun i => decide (hour_min_local (startAt th i) = hour_min_local dt)) =
            some chosenIdx := by
          rw [resolveShow_timeMatch] at hres
          by_cases hc : dayCandidates th m (toLocalMidnight dt) = []
          · rw [if_pos hc] at hres; cases hres
          · rwa [if_neg hc] at hres
        refine ⟨chosenIdx, hres, List.mem_of_find?_eq_some hfind, ?_, ?_⟩
        · have := List.find?_some hfind
          simpa using this
        · intro k hk hklt
          have := find?_first_of_pairwise (candidatesFrom_pairwise m (toLocalMidnight dt)
            th.vShowInfo 0) hfind k hk hklt
          simpa using this
  · intro name M cap s p1 p2
    rw [resolveShow_timeMatch]
    rw [if_neg (by simp [dayCandidates, candidatesFrom, Theater.addShowInfo, mkTheater])]
    simp [dayCandidates, candidatesFrom, Theater.addShowInfo, mkTheater, List.find?, startAt]

/-- Witness for `bookSeats_time_match_resolution` at a concrete input: a
theater with no shows has no candidates, so a time-match booking fails and
leaves the theater unchanged. -/
theorem bookSeats_time_match_resolution_witness :
    (mkTheater "T" 2).bookSeats "M" 9 ["A1"] 0 = (false, mkTheater "T" 2) :=
  bookSeats_time_match_resolution.1 (mkTheater "T" 2) "M" 9 ["A1"]
    (by intro i hi; simp [dayCandidates, candidatesFrom, mkTheater] at hi)

/-! ## Helper lemmas: sorting candidates by start time -/

theorem insertByStart_perm (th : Theater) (i : Nat) :
    ∀ l : List Nat, (insertByStart th i l).Perm (i :: l) := by
  intro l
  induction l with
  | nil => exact List.Perm.refl _
  | cons j rest ih =>
    simp only [insertByStart]
    split
    · exact List.Perm.refl _
    · exact (ih.cons j).trans (List.Perm.swap i j rest)

theorem sortByStart_perm (th : Theater) : ∀ l : List Nat, (sortByStart th l).Perm l := by
  intro l
  induction l with
  | nil => exact List.Perm.refl _
  | cons i rest ih =>
    simp only [sortByStart]
    exact (insertByStart_perm th i _).trans (ih.cons i)

theorem insertByStart_sorted (th : Theater) (i : Nat) :
    ∀ {l : List Nat}, List.Pairwise (fun a b => startAt th a ≤ startAt th b) l →
      List.Pairwise (fun a b => startAt th a ≤ startAt th b) (insertByStart th i l) := by
  intro l
  induction l with
  | nil => intro _; simp [insertByStart]
  | cons j rest ih =>
    intro hl
    rcases List.pairwise_cons.mp hl with ⟨hj, hrest⟩
    simp only [insertByStart]
    split
    · rename_i hlt
      refine List.pairwise_cons.mpr ⟨?_, hl⟩
      intro x hx
      rcases List.mem_cons.mp hx with rfl | hx'
      · exact le_of_lt hlt
      · exact le_trans (le_of_lt hlt) (hj x hx')
    · rename_i hge
      refine List.pairwise_cons.mpr ⟨?_, ih hrest⟩
      intro x hx
      have hx2 := (insertByStart_perm th i rest).mem_iff.mp hx
      rcases List.mem_cons.mp hx2 with rfl | hx'
      · exact le_of_not_lt hge
      · exact hj x hx'

theorem sortByStart_sorted (th : Theater) :
    ∀ l : List Nat, List.Pairwise (fun a b => startAt th a ≤ startAt th b) (sortByStart th l) := by
  intro l
  induction l with
  | nil => exact List.Pairwise.nil
  | cons i rest ih => exact insertByStart_sorted th i ih

/-! ## Helper lemmas: ordinal-mode resolution -/

theorem resolveShow_neg {th : Theater} {m : String} {dt : Nat} {no : Int} (h : no < 0) :
    resolveShow th m dt no = none := by
  unfold resolveShow
  dsimp only
  by_cases hc : dayCandidates th m (toLocalMidnight dt) = []
  · rw [if_pos hc]
  · rw [if_neg hc, if_neg (by omega), if_pos h]

theorem resolveShow_ordinal_overflow {th : Theater} {m : String} {dt : Nat} {no : Int}
    (hpos : 0 < no)
    (hgt : (dayCandidates th m (toLocalMidnight dt)).length < no.toNat) :
    resolveShow th m dt no = none := by
  unfold resolveShow
  dsimp only
  by_cases hc : dayCandidates th m (toLocalMidnight dt) = []
  · rw [if_pos hc]
  · have hlen := (sortByStart_perm th (dayCandidates th m (toLocalMidnight dt))).length_eq
    rw [if_neg hc, if_neg (by omega), if_neg (by omega), if_pos (by omega)]

theorem resolveShow_ordinal {th : Theater} {m : String} {dt : Nat} {no : Int}
    (hpos : 0 < no)
    (hle : no.toNat ≤ (dayCandidates th m (toLocalMidnight dt)).length) :
    resolveShow th m dt no =
      (sortByStart th (dayCandidates th m (toLocalMidnight dt))).get? (no.toNat - 1) := by
  unfold resolveShow
  dsimp only
  have hne : dayCandidates th m (toLocalMidnight dt) ≠ [] := by
    intro h
    rw [h] at hle
    simp at hle
    omega
  have hlen := (sortByStart_perm th (dayCandidates th m (toLocalMidnight dt))).length_eq
  rw [if_neg hne, if_neg (by omega), if_neg (by omega), if_neg (by omega)]

theorem mid_of_three (name M : String) (cap : Nat) (p : Int) (dt s1 s2 s3 sa sb sc : Nat)
    (hperm : List.Perm [sa, sb, sc] [s1, s2, s3])
    (h12 : s1 ≤ s2) (h23 : s2 ≤ s3)
    (hda : toLocalMidnight sa = toLocalMidnight dt)
    (hdb : toLocalMidnight sb = toLocalMidnight dt)
    (hdc : toLocalMidnight sc = toLocalMidnight dt) :
    ∃ j, resolveShow ((((mkTheater name cap).addShowInfo M sa p).addShowInfo M sb p).addShowInfo
        M sc p) M dt 2 = some j ∧
      startAt ((((mkTheater name cap).addShowInfo M sa p).addShowInfo M sb p).addShowInfo
        M sc p) j = s2 := by
  set th := (((mkTheater name cap).addShowInfo M sa p).addShowInfo M sb p).addShowInfo M sc p
    with hth
  have hcand : dayCandidates th M (toLocalMidnight dt) = [0, 1, 2] := by
    simp [hth, dayCandidates, candidatesFrom, Theater.addShowInfo, mkTheater, hda, hdb, hdc]
  have hstarts : startAt th 0 = sa ∧ startAt th 1 = sb ∧ startAt th 2 = sc := by
    refine ⟨?_, ?_, ?_⟩ <;> simp [hth, startAt, Theater.addShowInfo, mkTheater]
  have hsortperm : (sortByStart th [0, 1, 2]).Perm [0, 1, 2] := sortByStart_perm th _
  have hsorted := sortByStart_sorted th [0, 1, 2]
  have hmapperm : ((sortByStart th [0, 1, 2]).map (startAt th)).Perm [s1, s2, s3] := by
    refine (hsortperm.map (startAt th)).trans ?_
    have hm : [0, 1, 2].map (startAt th) = [sa, sb, sc] := by
      simp [hstarts.1, hstarts.2.1, hstarts.2.2]
    rw [hm]
    exact hperm
  have hmapsorted : List.Sorted (· ≤ ·) ((sortByStart th [0, 1, 2]).map (startAt th)) :=
    List.pairwise_map.mpr hsorted
  have htriple : List.Sorted (· ≤ ·) [s1, s2, s3] := by
    simp [List.sorted_cons]
    omega
  have heq : (sortByStart th [0, 1, 2]).map (startAt th) = [s1, s2, s3] :=
    List.eq_of_perm_of_sorted hmapperm hmapsorted htriple
  have hget : ((sortByStart th [0, 1, 2]).map (startAt th)).get? 1 = some s2 := by
    rw [heq]
    rfl
  rw [List.get?_map] at hget
  rcases Option.map_eq_some'.mp hget with ⟨j, hj, hstart⟩
  refine ⟨j, ?_, hstart⟩
  have hle : (2 : Int).toNat ≤ (dayCandidates th M (toLocalMidnight dt)).length := by
    rw [hcand]
    norm_num
  rw [resolveShow_ordinal (by norm_num) hle, hcand]
  exact hj

/-! ## C3: ordinal mode -/

/-- **C3**: in ordinal mode `bookSeats` resolves the show by sorting the
title/day candidates ascending by start time (`sortByStart` applied to
`dayCandidates` is a permutation of it that is sorted by `start`) and
selecting the `ordinal`-th, 1-based; a negative ordinal always fails with
no state change, and so does an ordinal exceeding the candidate count;
consequently, with three shows of the same title on the same day at
distinct start times `s1 < s2 < s3`, inserted in any of the six orders,
ordinal 2 always resolves the show whose start is the middle time `s2`. -/
theorem bookSeats_ordinal_resolution :
    (∀ (th : Theater) (m : String) (dt : Nat) (ids : List String) (no : Int),
      no < 0 → th.bookSeats m dt ids no = (false, th)) ∧
    (∀ (th : Theater) (m : String) (dt : Nat) (ids : List String) (no : Int),
      0 < no → (dayCandidates th m (toLocalMidnight dt)).length < no.toNat →
      th.bookSeats m dt ids no = (false, th)) ∧
    (∀ (th : Theater) (l : List Nat),
      (sortByStart th l).Perm l ∧
      List.Pairwise (fun a b => startAt th a ≤ startAt th b) (sortByStart th l)) ∧
    (∀ (th : Theater) (m : String) (dt : Nat) (no : Int),
      0 < no → no.toNat ≤ (dayCandidates th m (toLocalMidnight dt)).length →
      resolveShow th m dt no =
        (sortByStart th (dayCandidates th m (toLocalMidnight dt))).get? (no.toNat - 1)) ∧
    (∀ (name M : String) (cap : Nat) (p : Int) (dt s1 s2 s3 : Nat) (order : List Nat),
      order ∈ [[s1, s2, s3], [s1, s3, s2], [s2, s1, s3],
                [s2, s3, s1], [s3, s1, s2], [s3, s2, s1]] →
      s1 < s2 → s2 < s3 →
      toLocalMidnight s1 = toLocalMidnight dt →
      toLocalMidnight s2 = toLocalMidnight dt →
      toLocalMidnight s3 = toLocalMidnight dt →
      ∃ j, resolveShow (order.foldl (fun t st => t.addShowInfo M st p)
            (mkTheater name cap)) M dt 2 = some j ∧
        startAt (order.foldl (fun t st => t.addShowInfo M st p) (mkTheater name cap)) j = s2) := by
  refine ⟨?_, ?_, ?_, ?_, ?_⟩
  · intro th m dt ids no h
    exact bookSeats_of_resolve_none (resolveShow_neg h) ids
  · intro th m dt ids no hpos hgt
    exact bookSeats_of_resolve_none (resolveShow_ordinal_overflow hpos hgt) ids
  · intro th l
    exact ⟨sortByStart_perm th l, sortByStart_sorted th l⟩
  · intro th m dt no hpos hle
    exact resolveShow_ordinal hpos hle
  · intro name M cap p dt s1 s2 s3 order horder h12 h23 hd1 hd2 hd3
    simp only [List.mem_cons, List.not_mem_nil, or_false] at horder
    rcases horder with rfl | rfl | rfl | rfl | rfl | rfl
    · exact mid_of_three name M cap p dt s1 s2 s3 s1 s2 s3 (List.Perm.refl _)
        (le_of_lt h12) (le_of_lt h23) hd1 hd2 hd3
    · exact mid_of_three name M cap p dt s1 s2 s3 s1 s3 s2
        (List.Perm.cons s1 (List.Perm.swap s2 s3 []))
        (le_of_lt h12) (le_of_lt h23) hd1 hd3 hd2
    · exact mid_of_three name M cap p dt s1 s2 s3 s2 s1 s3
        (List.Perm.swap s1 s2 [s3])
        (le_of_lt h12) (le_of_lt h23) hd2 hd1 hd3
    · exact mid_of_three name M cap p dt s1 s2 s3 s2 s3 s1
        (List.Perm.trans (List.Perm.cons s2 (List.Perm.swap s1 s3 []))
          (List.Perm.swap s1 s2 [s3]))
        (le_of_lt h12) (le_of_lt h23) hd2 hd3 hd1
    · exact mid_of_three name M cap p dt s1 s2 s3 s3 s1 s2
        (List.Perm.trans (List.Perm.swap s1 s3 [s2])
          (List.Perm.cons s1 (List.Perm.swap s2 s3 [])))
        (le_of_lt h12) (le_of_lt h23) hd3 hd1 hd2
    · exact mid_of_three name M cap p dt s1 s2 s3 s3 s2 s1
        (List.Perm.trans (List.Perm.swap s2 s3 [s1])
          (List.Perm.trans (List.Perm.cons s2 (List.Perm.swap s1 s3 []))
            (List.Perm.swap s1 s2 [s3])))
        (le_of_lt h12) (le_of_lt h23) hd3 hd2 hd1

/-- Witness for `bookSeats_ordinal_resolution` at a concrete input: a
negative ordinal fails and leaves the theater unchanged. -/
theorem bookSeats_ordinal_resolution_witness :
    (mkTheater "T" 2).bookSeats "M" 5 ["A1"] (-1) = (false, mkTheater "T" 2) :=
  bookSeats_ordinal_resolution.1 (mkTheater "T" 2) "M" 5 ["A1"] (-1) (by norm_num)

end MovieTickets
